import Mathlib

/-!
Verification of the taxon-matching and subspecies-ordering core of the
`update_state_list` tool (module `update_state_list/update_state_list.py`).

Strings are modelled as lists of characters.  Numeric taxon order values
(Python ints/floats holding exact centesimal offsets) are modelled as
rationals.  Logging calls are modelled by returning the list of emitted
messages, each tagged with its level and the arguments it names.
-/

/-- Character strings of the program, modelled as lists of characters. -/
abbrev Str := List Char

/-- Convert a Lean string literal to the model's string type. -/
def strOf (s : String) : Str := s.toList

/-- Python whitespace characters as matched by `\s` (ASCII range) and by
`str.strip()`. -/
def isPySpace (c : Char) : Bool :=
  c = ' ' || c = '\t' || c = '\n' || c = '\r' || c = '\x0b' || c = '\x0c'

/-- Characters kept by the class `[a-zA-Z\s\-]` used in
`re.split(r"[^a-zA-Z\s\-]", common_name)`: ASCII letters, whitespace,
and the hyphen. -/
def keepChar (c : Char) : Bool :=
  c.isAlpha || isPySpace c || c = '-'

/-- Python `str.strip()`: remove leading and trailing whitespace. -/
def pyStrip (s : Str) : Str :=
  ((s.dropWhile isPySpace).reverse.dropWhile isPySpace).reverse

/-- `re.split(r"[^a-zA-Z\s\-]", common_name)[0].strip()` — the part of the
name before the first character that is not a letter, whitespace or hyphen,
then stripped (source line 143). -/
def base_name (s : Str) : Str :=
  pyStrip (s.takeWhile keepChar)

/-- Levels of the `logging` calls appearing in the module. -/
inductive LogLevel
  | error
  | warning
  | info
deriving Repr, DecidableEq

/-- One emitted log message: its level and the argument values it names. -/
structure LogMsg where
  level : LogLevel
  parts : List Str
deriving Repr, DecidableEq

/-- One record of the eBird taxonomy list, with the fields the module reads. -/
structure Taxon where
  comName : Str
  sciName : Str
  speciesCode : Str
  order : Str
  familyComName : Str
  taxonOrder : ℚ
  category : Str
deriving Repr, DecidableEq

/-- One row of the input checklist CSV: common name, state status, and the
optional "Sort as" override column (`none` when the column is absent). -/
structure InputRow where
  comName : Str
  stateStatus : Str
  sortAs : Option Str
deriving Repr, DecidableEq

/-- One output row: the input row's fields together with the fields copied
from the matched taxon, the computed order and the subspecies flag. -/
structure EnrichedRow where
  comName : Str
  stateStatus : Str
  sortAs : Option Str
  sciName : Str
  speciesCode : Str
  order : Str
  familyComName : Str
  taxonOrder : ℚ
  subspecies : Bool
deriving Repr, DecidableEq

/-- `get_matching_taxon(common_name, taxonomy)` (source lines 116-155).
Returns the matched record (if any), the `non_issf_subspecies` flag, and the
log messages emitted inside the function: exactly one error naming the
looked-up name and the derived base name, emitted when nothing matches. -/
def get_matching_taxon (common_name : Str) (taxonomy : List Taxon) :
    Option Taxon × Bool × List LogMsg :=
  match taxonomy.find? (fun t => t.comName == common_name) with
  | some t => (some t, false, [])
  | none =>
    match taxonomy.find? (fun t => (base_name common_name).isPrefixOf t.comName) with
    | some t => (some t, true, [])
    | none => (none, true, [⟨.error, [common_name, base_name common_name]⟩])

/-- The name used for the lookup (source lines 180-183): the "Sort as" value
when it is present and truthy (non-empty), otherwise the row's common name. -/
def lookup_name (bird : InputRow) : Str :=
  match bird.sortAs with
  | some s => if s.isEmpty then bird.comName else s
  | none => bird.comName

/-- The non-ISSF-subspecies classification computed at source lines 191-193:
the flag returned by `get_matching_taxon`, or-ed with whether the row's own
common name (not the lookup name) contains a parenthesis. -/
def non_issf_class (taxonomy : List Taxon) (bird : InputRow) : Bool :=
  (get_matching_taxon (lookup_name bird) taxonomy).2.1 || bird.comName.contains '('

/-- The body of the per-row loop of `update_state_list` (source lines
179-214) for one row: given the running offset counter
`non_issf_subspecies_order_keeper`, produce the enriched row (or `none` when
the row is dropped), the new counter value, and the emitted log messages. -/
def process_bird (taxonomy : List Taxon) (bird : InputRow) (keeper : ℚ) :
    Option EnrichedRow × ℚ × List LogMsg :=
  match get_matching_taxon (lookup_name bird) taxonomy with
  | (none, _, logs) => (none, keeper, logs ++ [⟨.error, [bird.comName]⟩])
  | (some t, _, logs) =>
    if non_issf_class taxonomy bird then
      (some { comName := bird.comName, stateStatus := bird.stateStatus,
              sortAs := bird.sortAs, sciName := t.sciName,
              speciesCode := t.speciesCode, order := t.order,
              familyComName := t.familyComName,
              taxonOrder := t.taxonOrder + (keeper + 1/100),
              subspecies := true },
       keeper + 1/100, logs)
    else
      (some { comName := bird.comName, stateStatus := bird.stateStatus,
              sortAs := bird.sortAs, sciName := t.sciName,
              speciesCode := t.speciesCode, order := t.order,
              familyComName := t.familyComName,
              taxonOrder := t.taxonOrder,
              subspecies := t.category == strOf "issf" },
       0, logs)

/-- The whole row loop of `update_state_list` (source lines 178-214):
threads the offset counter through the rows, collects the enriched rows in
order, and concatenates the emitted log messages. -/
def process_birds (taxonomy : List Taxon) : ℚ → List InputRow →
    List EnrichedRow × ℚ × List LogMsg
  | keeper, [] => ([], keeper, [])
  | keeper, bird :: rest =>
    match process_bird taxonomy bird keeper with
    | (row?, keeper2, logs1) =>
      match process_birds taxonomy keeper2 rest with
      | (rows, keeper3, logs2) => (row?.toList ++ rows, keeper3, logs1 ++ logs2)

/-- The literal historical-status marker `"(4)"` of `create_output_file`. -/
def hist_status : Str := strOf "(4)"

/-- First component of the sort key of `create_output_file` (source lines
40-45): `x.get("State Status") == "(4)"`, as 0/1 with Python's
`False < True`. -/
def hist_rank (row : EnrichedRow) : Nat :=
  if row.stateStatus == hist_status then 1 else 0

/-- The ascending lexicographic comparison on the sort key
`(status == "(4)", taxonOrder)` used by `updated_bird_data.sort`. -/
def sort_key_le (a b : EnrichedRow) : Bool :=
  decide (hist_rank a < hist_rank b) ||
    (hist_rank a == hist_rank b && decide (a.taxonOrder ≤ b.taxonOrder))

/-- Stable insertion of a row into a list sorted by `sort_key_le`: the row
goes before the first element strictly greater than it, hence after any
element with an equal key, as in Python's stable `list.sort`. -/
def insert_sorted (a : EnrichedRow) : List EnrichedRow → List EnrichedRow
  | [] => [a]
  | b :: l => if sort_key_le a b then a :: b :: l else b :: insert_sorted a l

/-- The sorting step of `create_output_file` (source lines 40-45): a stable
sort of the enriched rows by the composite key
`(status == "(4)", taxonOrder)`. -/
def create_output_file_sort : List EnrichedRow → List EnrichedRow
  | [] => []
  | a :: l => insert_sorted a (create_output_file_sort l)

/-- `get_taxonomy_of_interest` (source lines 68-90): drop hybrid and
domestic records from the taxonomy. -/
def get_taxonomy_of_interest (taxonomy : List Taxon) : List Taxon :=
  taxonomy.filter
    (fun t => !(t.category == strOf "hybrid") && !(t.category == strOf "domestic"))

/-- The whole core of `update_state_list` after the taxonomy and the input
rows are loaded: run the row loop with the counter initialised to 0, then
sort as `create_output_file` does.  Returns the output rows and the logs. -/
def update_state_list_core (taxonomy : List Taxon) (birds_data : List InputRow) :
    List EnrichedRow × List LogMsg :=
  match process_birds taxonomy 0 birds_data with
  | (rows, _, logs) => (create_output_file_sort rows, logs)

/-- Modelled from the spec (§4.2 step 2), for comparison with the source's
`base_name`: the spec describes the base name as the longest leading
substring of letters, whitespace and hyphens with only *trailing*
whitespace stripped, whereas the source strips both ends. -/
def base_name_claimed (s : Str) : Str :=
  ((s.takeWhile keepChar).reverse.dropWhile isPySpace).reverse

/-! Concrete fixtures used by counterexamples and witnesses. -/

/-- A parent species record with an integer order, for lookup examples. -/
def foo_taxon : Taxon :=
  ⟨strOf "Foo", strOf "Foo sci", strOf "foo1", strOf "Passeriformes",
   strOf "Foos", 100, strOf "species"⟩

/-- An input row whose own common name holds a parenthesis while its
"Sort as" override does not. -/
def foo_row : InputRow := ⟨strOf "Foo (X)", strOf "S", some (strOf "Foo")⟩

/-- The parent species of the spec's running example, order 200. -/
def yrw_taxon : Taxon :=
  ⟨strOf "Yellow-rumped Warbler", strOf "Setophaga coronata", strOf "yerwar",
   strOf "Passeriformes", strOf "New World Warblers", 200, strOf "species"⟩

/-- The subspecies-style row of the spec's running example. -/
def myrtle_row : InputRow :=
  ⟨strOf "Yellow-rumped Warbler (Myrtle)", strOf "S", none⟩

/-- A record whose common name continues past the base name of `" Ab("`. -/
def abcd_taxon : Taxon :=
  ⟨strOf "Ab cd", strOf "Ab sci", strOf "abcd1", strOf "Passeriformes",
   strOf "Abs", 7, strOf "species"⟩

/-- A first parent species, order 300, for the shared-counter example. -/
def aa_taxon : Taxon :=
  ⟨strOf "Aa", strOf "Aa sci", strOf "aa1", strOf "Passeriformes",
   strOf "Aas", 300, strOf "species"⟩

/-- A second, distinct parent species, order 400. -/
def bb_taxon : Taxon :=
  ⟨strOf "Bb", strOf "Bb sci", strOf "bb1", strOf "Passeriformes",
   strOf "Bbs", 400, strOf "species"⟩

/-! Helper lemmas. -/

/-- A prefix all of whose elements satisfy `q` is a prefix of `takeWhile q`:
`takeWhile` is the longest such prefix. -/
theorem prefix_of_takeWhile {α : Type} (q : α → Bool) :
    ∀ (l p : List α), p <+: l → (∀ c ∈ p, q c = true) → p <+: l.takeWhile q := by
  intro l
  induction l with
  | nil =>
    intro p hp _
    simpa using hp
  | cons a l ih =>
    intro p hp hq
    cases p with
    | nil => exact List.nil_prefix
    | cons b p2 =>
      rw [List.cons_prefix_cons] at hp
      obtain ⟨rfl, hp2⟩ := hp
      have hqa : q b = true := hq b (List.mem_cons_self b p2)
      rw [List.takeWhile_cons, if_pos hqa]
      exact List.cons_prefix_cons.mpr
        ⟨rfl, ih p2 hp2 (fun c hc => hq c (List.mem_cons_of_mem b hc))⟩

/-! ## C1 -/

/-- C1, counterexample: for the row with common name `"Foo (X)"` and
"Sort as" override `"Foo"`, the override matches exactly (no approximate
match) and contains no parenthesis, yet the code classifies the row as a
non-ISSF subspecies (it checks the row's own common name, source line 191),
applies the offset and sets the subspecies flag — so the classification is
not equivalent to `approximate OR lookup name holds a parenthesis`. -/
theorem sort_as_paren_flag_counterexample :
    foo_row.sortAs = some (strOf "Foo") ∧
    (strOf "Foo").isEmpty = false ∧
    (get_matching_taxon (lookup_name foo_row) [foo_taxon]).2.1 = false ∧
    (lookup_name foo_row).contains '(' = false ∧
    non_issf_class [foo_taxon] foo_row = true ∧
    (process_bird [foo_taxon] foo_row 0).1.map (fun r => r.subspecies) = some true := by
  refine ⟨rfl, rfl, by decide, by decide, by decide, by decide⟩

/-- C1 (amended): for every row carrying a truthy "Sort as" override, the
non-ISSF-subspecies classification is true exactly when the approximate
heuristic fired OR the row's *own* common name (not the override lookup
name) contains `'('`; when it is true, the matched row gets the subspecies
flag and the offset added to the parent's order. -/
theorem sort_as_paren_flag_amended (taxonomy : List Taxon) (bird : InputRow)
    (s : Str) (keeper : ℚ) (hs : bird.sortAs = some s) (hne : s.isEmpty = false) :
    (non_issf_class taxonomy bird = true ↔
      ((get_matching_taxon (lookup_name bird) taxonomy).2.1 = true ∨
        bird.comName.contains '(' = true)) ∧
    (∀ t, (get_matching_taxon (lookup_name bird) taxonomy).1 = some t →
      non_issf_class taxonomy bird = true →
      (process_bird taxonomy bird keeper).1.map (fun r => r.subspecies) = some true ∧
      (process_bird taxonomy bird keeper).1.map (fun r => r.taxonOrder)
        = some (t.taxonOrder + (keeper + 1/100))) := by
  constructor
  · simp [non_issf_class]
  · intro t hm hcl
    rcases hg : get_matching_taxon (lookup_name bird) taxonomy with ⟨o, flag, logs⟩
    rw [hg] at hm
    simp only at hm
    subst hm
    simp [process_bird, hg, hcl]

/-- C1, witness for the amended theorem at the counterexample row. -/
theorem sort_as_paren_flag_amended_witness :
    foo_row.sortAs = some (strOf "Foo") ∧
    (strOf "Foo").isEmpty = false ∧
    ((non_issf_class [foo_taxon] foo_row = true ↔
      ((get_matching_taxon (lookup_name foo_row) [foo_taxon]).2.1 = true ∨
        foo_row.comName.contains '(' = true)) ∧
    (∀ t, (get_matching_taxon (lookup_name foo_row) [foo_taxon]).1 = some t →
      non_issf_class [foo_taxon] foo_row = true →
      (process_bird [foo_taxon] foo_row 0).1.map (fun r => r.subspecies) = some true ∧
      (process_bird [foo_taxon] foo_row 0).1.map (fun r => r.taxonOrder)
        = some (t.taxonOrder + (0 + 1/100)))) :=
  ⟨rfl, rfl, sort_as_paren_flag_amended [foo_taxon] foo_row (strOf "Foo") 0 rfl rfl⟩

/-! ## C2 -/

/-- C2, counterexample: the lookup of `"Yellow-rumped Warbler (Myrtle)"`
resolves via the approximate (base-name) step, yet the emitted log list is
empty — in particular no warning-level diagnostic is produced. -/
theorem approx_match_no_warning_counterexample :
    (get_matching_taxon (strOf "Yellow-rumped Warbler (Myrtle)") [yrw_taxon]).1
        = some yrw_taxon ∧
    (get_matching_taxon (strOf "Yellow-rumped Warbler (Myrtle)") [yrw_taxon]).2.1
        = true ∧
    (get_matching_taxon (strOf "Yellow-rumped Warbler (Myrtle)") [yrw_taxon]).2.2
        = [] := by
  decide

/-- C2 (amended): a lookup that resolves via the approximate step emits no
diagnostic at all; the matcher's only diagnostic is the error emitted when
neither step finds a record. -/
theorem approx_match_silent (nm : Str) (taxonomy : List Taxon) (t : Taxon)
    (hex : taxonomy.find? (fun u => u.comName == nm) = none)
    (happ : taxonomy.find? (fun u => (base_name nm).isPrefixOf u.comName) = some t) :
    get_matching_taxon nm taxonomy = (some t, true, []) := by
  unfold get_matching_taxon
  rw [hex, happ]

/-- C2, witness for the amended theorem at the counterexample lookup. -/
theorem approx_match_silent_witness :
    [yrw_taxon].find?
        (fun u => u.comName == strOf "Yellow-rumped Warbler (Myrtle)") = none ∧
    [yrw_taxon].find?
        (fun u => (base_name (strOf "Yellow-rumped Warbler (Myrtle)")).isPrefixOf
          u.comName) = some yrw_taxon ∧
    get_matching_taxon (strOf "Yellow-rumped Warbler (Myrtle)") [yrw_taxon]
        = (some yrw_taxon, true, []) :=
  ⟨by decide, by decide,
    approx_match_silent (strOf "Yellow-rumped Warbler (Myrtle)") [yrw_taxon]
      yrw_taxon (by decide) (by decide)⟩

/-! ## C5 -/

/-- C5, counterexample: for the lookup name `" Ab("` (leading space) with no
exact match, the spec's base name — only trailing whitespace stripped — is
`" Ab"`, and no taxonomy record's common name starts with it; yet the code
strips leading whitespace too (`str.strip()`), derives `"Ab"`, and returns
the record `"Ab cd"` as an approximate match. -/
theorem base_name_strip_counterexample :
    base_name_claimed (strOf " Ab(") = strOf " Ab" ∧
    base_name (strOf " Ab(") = strOf "Ab" ∧
    [abcd_taxon].find? (fun u => u.comName == strOf " Ab(") = none ∧
    (get_matching_taxon (strOf " Ab(") [abcd_taxon]).1 = some abcd_taxon ∧
    (get_matching_taxon (strOf " Ab(") [abcd_taxon]).2.1 = true ∧
    [abcd_taxon].find?
        (fun u => (base_name_claimed (strOf " Ab(")).isPrefixOf u.comName) = none := by
  decide

/-- C5 (amended): for every lookup name with no exact match, the matcher
derives the base name by stripping leading *and* trailing whitespace from
the longest leading substring of letters, whitespace and hyphens (the
`takeWhile` prefix, characterised below as the longest such prefix), and
returns the first taxonomy record — first in list order — whose common name
starts with that base name, flagged as an approximate match. -/
theorem base_name_approx_match_amended (nm : Str) (taxonomy : List Taxon)
    (hex : taxonomy.find? (fun u => u.comName == nm) = none) :
    (nm.takeWhile keepChar <+: nm ∧
      (∀ c ∈ nm.takeWhile keepChar, keepChar c = true) ∧
      (∀ p, p <+: nm → (∀ c ∈ p, keepChar c = true) → p <+: nm.takeWhile keepChar)) ∧
    base_name nm = pyStrip (nm.takeWhile keepChar) ∧
    (get_matching_taxon nm taxonomy).2.1 = true ∧
    (get_matching_taxon nm taxonomy).1
        = taxonomy.find? (fun u => (base_name nm).isPrefixOf u.comName) ∧
    (∀ u, (get_matching_taxon nm taxonomy).1 = some u →
      (base_name nm).isPrefixOf u.comName = true ∧
      ∃ pre post, taxonomy = pre ++ u :: post ∧
        ∀ v ∈ pre, (base_name nm).isPrefixOf v.comName = false) := by
  refine ⟨⟨List.takeWhile_prefix keepChar, fun c hc => List.mem_takeWhile_imp hc,
      fun p hp hkeep => prefix_of_takeWhile keepChar nm p hp hkeep⟩, rfl, ?_, ?_, ?_⟩
  · unfold get_matching_taxon
    rw [hex]
    rcases hfind : taxonomy.find? (fun u => (base_name nm).isPrefixOf u.comName) with _ | u <;>
      rw [hfind]
  · unfold get_matching_taxon
    rw [hex]
    rcases hfind : taxonomy.find? (fun u => (base_name nm).isPrefixOf u.comName) with _ | u <;>
      rw [hfind]
  · intro u hu
    unfold get_matching_taxon at hu
    rw [hex] at hu
    rcases hfind : taxonomy.find? (fun u => (base_name nm).isPrefixOf u.comName) with _ | v
    · rw [hfind] at hu
      simp at hu
    · rw [hfind] at hu
      simp only at hu
      rw [List.find?_eq_some] at hfind
      obtain ⟨hpu, pre, post, hsplit, hpre⟩ := hfind
      cases hu
      exact ⟨hpu, pre, post, hsplit, fun v hv => by simpa using hpre v hv⟩

/-- C5, witness for the amended theorem at a concrete subspecies lookup. -/
theorem base_name_approx_match_amended_witness :
    [abcd_taxon].find? (fun u => u.comName == strOf "Ab (X)") = none ∧
    (get_matching_taxon (strOf "Ab (X)") [abcd_taxon]).2.1 = true ∧
    (get_matching_taxon (strOf "Ab (X)") [abcd_taxon]).1
        = [abcd_taxon].find?
            (fun u => (base_name (strOf "Ab (X)")).isPrefixOf u.comName) :=
  ⟨by decide,
    (base_name_approx_match_amended (strOf "Ab (X)") [abcd_taxon] (by decide)).2.2.1,
    (base_name_approx_match_amended (strOf "Ab (X)") [abcd_taxon] (by decide)).2.2.2.1⟩

/-! ## C10 -/

/-- C10: a lookup name whose first character is not a kept character (not an
ASCII letter, whitespace or hyphen) and that has no exact match yields the
empty base name; every record's common name starts with the empty string,
so the matcher returns the first record of the taxonomy it was given as an
approximate match — never `none` when that taxonomy is non-empty. -/
theorem empty_base_name_first_record (c : Char) (cs : Str) (t0 : Taxon)
    (rest : List Taxon) (hc : keepChar c = false)
    (hex : (t0 :: rest).find? (fun u => u.comName == c :: cs) = none) :
    base_name (c :: cs) = [] ∧
    (∀ u ∈ t0 :: rest, (base_name (c :: cs)).isPrefixOf u.comName = true) ∧
    get_matching_taxon (c :: cs) (t0 :: rest) = (some t0, true, []) := by
  have hbn : base_name (c :: cs) = [] := by
    simp [base_name, List.takeWhile_cons, hc, pyStrip]
  refine ⟨hbn, fun u _ => by simp [hbn, List.isPrefixOf], ?_⟩
  unfold get_matching_taxon
  rw [hex]
  simp [List.find?_cons, hbn, List.isPrefixOf]

/-- C10, witness: the lookup name `"4x"` starts with a digit, matches
nothing exactly, and resolves to the first record of the taxonomy. -/
theorem empty_base_name_first_record_witness :
    keepChar '4' = false ∧
    [abcd_taxon].find? (fun u => u.comName == '4' :: strOf "x") = none ∧
    (base_name ('4' :: strOf "x") = [] ∧
      (∀ u ∈ [abcd_taxon], (base_name ('4' :: strOf "x")).isPrefixOf u.comName = true) ∧
      get_matching_taxon ('4' :: strOf "x") [abcd_taxon] = (some abcd_taxon, true, [])) :=
  ⟨by decide, by decide,
    empty_base_name_first_record '4' (strOf "x") abcd_taxon [] (by decide) (by decide)⟩

/-! ## C3 -/

/-- C3: the subspecies row `"Yellow-rumped Warbler (Myrtle)"` matched
approximately against its parent of order 200 is assigned order
`200 + 0.01`; a second consecutive such row against the same parent is
assigned `200 + 0.02` — each consecutive offset row adds one more increment
of `0.01` to the parent's order. -/
theorem consecutive_subspecies_offsets :
    (process_birds [yrw_taxon] 0 [myrtle_row, myrtle_row]).1.map
        (fun r => r.taxonOrder) = [200 + 1/100, 200 + 2/100] := by
  have h : (process_birds [yrw_taxon] 0 [myrtle_row, myrtle_row]).1.map
      (fun r => r.taxonOrder)
      = [(200 : ℚ) + (0 + 1/100), 200 + ((0 : ℚ) + 1/100 + 1/100)] := rfl
  rw [h]
  norm_num

/-! ## C4 -/

/-- C4: a row that resolves as a normal (non-offset) species match resets
the offset counter to 0, so any subspecies row processed next receives
exactly its parent's order plus `0.01`, not an accumulated value. -/
theorem offset_reset_on_normal_match (taxonomy : List Taxon) (bird : InputRow)
    (keeper : ℚ) (t : Taxon)
    (hm : (get_matching_taxon (lookup_name bird) taxonomy).1 = some t)
    (hcl : non_issf_class taxonomy bird = false) :
    (process_bird taxonomy bird keeper).2.1 = 0 ∧
    (∀ bird2 t2, (get_matching_taxon (lookup_name bird2) taxonomy).1 = some t2 →
      non_issf_class taxonomy bird2 = true →
      (process_bird taxonomy bird2 (process_bird taxonomy bird keeper).2.1).1.map
          (fun r => r.taxonOrder) = some (t2.taxonOrder + 1/100)) := by
  have hk : (process_bird taxonomy bird keeper).2.1 = 0 := by
    rcases hg : get_matching_taxon (lookup_name bird) taxonomy with ⟨o, flag, logs⟩
    rw [hg] at hm
    simp only at hm
    subst hm
    simp [process_bird, hg, hcl]
  refine ⟨hk, fun bird2 t2 hm2 hcl2 => ?_⟩
  rw [hk]
  rcases hg2 : get_matching_taxon (lookup_name bird2) taxonomy with ⟨o2, flag2, logs2⟩
  rw [hg2] at hm2
  simp only at hm2
  subst hm2
  simp [process_bird, hg2, hcl2]

/-- C4, witness: a normal species row (`"Foo"`, exact match, no
parenthesis) resets the counter, and the following subspecies row gets its
parent's order plus `0.01`. -/
theorem offset_reset_on_normal_match_witness :
    (get_matching_taxon (lookup_name ⟨strOf "Foo", strOf "S", none⟩)
        [foo_taxon, yrw_taxon]).1 = some foo_taxon ∧
    non_issf_class [foo_taxon, yrw_taxon] ⟨strOf "Foo", strOf "S", none⟩ = false ∧
    ((process_bird [foo_taxon, yrw_taxon] ⟨strOf "Foo", strOf "S", none⟩ 5).2.1 = 0 ∧
    (∀ bird2 t2,
      (get_matching_taxon (lookup_name bird2) [foo_taxon, yrw_taxon]).1 = some t2 →
      non_issf_class [foo_taxon, yrw_taxon] bird2 = true →
      (process_bird [foo_taxon, yrw_taxon] bird2
          (process_bird [foo_taxon, yrw_taxon] ⟨strOf "Foo", strOf "S", none⟩ 5).2.1).1.map
          (fun r => r.taxonOrder) = some (t2.taxonOrder + 1/100))) :=
  ⟨by decide, by decide,
    offset_reset_on_normal_match [foo_taxon, yrw_taxon] ⟨strOf "Foo", strOf "S", none⟩
      5 foo_taxon (by decide) (by decide)⟩

/-! ## C7 -/

/-- C7: a row whose lookup matches nothing, exactly or by prefix, is
excluded from the output, leaves the offset counter unchanged for the rest
of the rows, contributes an error-level diagnostic naming the row's common
name, and does not stop the processing of the remaining rows. -/
theorem unmatched_row_dropped (taxonomy : List Taxon) (bird : InputRow)
    (rest : List InputRow) (keeper : ℚ) (lgs : List LogMsg)
    (h : get_matching_taxon (lookup_name bird) taxonomy = (none, true, lgs)) :
    process_birds taxonomy keeper (bird :: rest) =
      ((process_birds taxonomy keeper rest).1,
       (process_birds taxonomy keeper rest).2.1,
       (lgs ++ [⟨.error, [bird.comName]⟩]) ++ (process_birds taxonomy keeper rest).2.2) ∧
    LogMsg.mk .error [bird.comName] ∈ (process_birds taxonomy keeper (bird :: rest)).2.2 := by
  have hstep : process_bird taxonomy bird keeper
      = (none, keeper, lgs ++ [⟨.error, [bird.comName]⟩]) := by
    unfold process_bird
    rw [h]
  have hmain : process_birds taxonomy keeper (bird :: rest) =
      ((process_birds taxonomy keeper rest).1,
       (process_birds taxonomy keeper rest).2.1,
       (lgs ++ [⟨.error, [bird.comName]⟩]) ++ (process_birds taxonomy keeper rest).2.2) := by
    rw [process_birds, hstep]
    rcases hrest : process_birds taxonomy keeper rest with ⟨rows, keeper3, logs2⟩
    simp [hrest]
  refine ⟨hmain, ?_⟩
  rw [hmain]
  simp

/-- C7, witness: the row `"Qq"` matches nothing in a taxonomy holding only
`"Ab cd"`; it is dropped, the counter value 3 is kept, and the error is
logged. -/
theorem unmatched_row_dropped_witness :
    get_matching_taxon (lookup_name ⟨strOf "Qq", strOf "S", none⟩) [abcd_taxon]
        = (none, true, [⟨.error, [strOf "Qq", strOf "Qq"]⟩]) ∧
    (process_birds [abcd_taxon] 3 [⟨strOf "Qq", strOf "S", none⟩] =
      ((process_birds [abcd_taxon] 3 []).1,
       (process_birds [abcd_taxon] 3 []).2.1,
       ([⟨.error, [strOf "Qq", strOf "Qq"]⟩] ++ [⟨.error, [strOf "Qq"]⟩])
         ++ (process_birds [abcd_taxon] 3 []).2.2) ∧
    LogMsg.mk .error [strOf "Qq"]
        ∈ (process_birds [abcd_taxon] 3 [⟨strOf "Qq", strOf "S", none⟩]).2.2) :=
  ⟨by decide,
    unmatched_row_dropped [abcd_taxon] ⟨strOf "Qq", strOf "S", none⟩ [] 3
      [⟨.error, [strOf "Qq", strOf "Qq"]⟩] (by decide)⟩

/-! ## C8 -/

/-- C8: with a non-negative counter, an offset-assigned subspecies row gets
order `parent + (keeper + 0.01)`, strictly above its parent's own order;
a consecutive offset row against the same parent gets a larger-or-equal
order, so orders are non-decreasing along such a run; and every step of the
loop keeps the counter non-negative (it starts at 0). -/
theorem offset_rows_order_invariant (taxonomy : List Taxon) (bird : InputRow)
    (keeper : ℚ) (t : Taxon) (hk : 0 ≤ keeper)
    (hcl : non_issf_class taxonomy bird = true)
    (hm : (get_matching_taxon (lookup_name bird) taxonomy).1 = some t) :
    (process_bird taxonomy bird keeper).1.map (fun r => r.taxonOrder)
        = some (t.taxonOrder + (keeper + 1/100)) ∧
    (process_bird taxonomy bird keeper).2.1 = keeper + 1/100 ∧
    t.taxonOrder < t.taxonOrder + (keeper + 1/100) ∧
    (∀ bird2, non_issf_class taxonomy bird2 = true →
      (get_matching_taxon (lookup_name bird2) taxonomy).1 = some t →
      (process_bird taxonomy bird2 (keeper + 1/100)).1.map (fun r => r.taxonOrder)
          = some (t.taxonOrder + (keeper + 1/100 + 1/100)) ∧
      t.taxonOrder + (keeper + 1/100) ≤ t.taxonOrder + (keeper + 1/100 + 1/100)) ∧
    (∀ bird3 (k3 : ℚ), 0 ≤ k3 → 0 ≤ (process_bird taxonomy bird3 k3).2.1) := by
  rcases hg : get_matching_taxon (lookup_name bird) taxonomy with ⟨o, flag, logs⟩
  rw [hg] at hm
  simp only at hm
  subst hm
  refine ⟨by simp [process_bird, hg, hcl], by simp [process_bird, hg, hcl], by linarith, ?_, ?_⟩
  · intro bird2 hcl2 hm2
    rcases hg2 : get_matching_taxon (lookup_name bird2) taxonomy with ⟨o2, flag2, logs2⟩
    rw [hg2] at hm2
    simp only at hm2
    subst hm2
    refine ⟨by simp [process_bird, hg2, hcl2], by linarith⟩
  · intro bird3 k3 hk3
    rcases hg3 : get_matching_taxon (lookup_name bird3) taxonomy with ⟨o3, flag3, logs3⟩
    rcases o3 with _ | t3
    · simpa [process_bird, hg3] using hk3
    · by_cases hcl3 : non_issf_class taxonomy bird3
      · simp [process_bird, hg3, hcl3]
        linarith
      · simp [process_bird, hg3, hcl3]

/-- C8, witness at the running example: counter 0, parent of order 200. -/
theorem offset_rows_order_invariant_witness :
    (0 : ℚ) ≤ 0 ∧
    non_issf_class [yrw_taxon] myrtle_row = true ∧
    (get_matching_taxon (lookup_name myrtle_row) [yrw_taxon]).1 = some yrw_taxon ∧
    ((process_bird [yrw_taxon] myrtle_row 0).1.map (fun r => r.taxonOrder)
        = some (yrw_taxon.taxonOrder + (0 + 1/100)) ∧
    (process_bird [yrw_taxon] myrtle_row 0).2.1 = 0 + 1/100 ∧
    yrw_taxon.taxonOrder < yrw_taxon.taxonOrder + (0 + 1/100) ∧
    (∀ bird2, non_issf_class [yrw_taxon] bird2 = true →
      (get_matching_taxon (lookup_name bird2) [yrw_taxon]).1 = some yrw_taxon →
      (process_bird [yrw_taxon] bird2 (0 + 1/100)).1.map (fun r => r.taxonOrder)
          = some (yrw_taxon.taxonOrder + (0 + 1/100 + 1/100)) ∧
      yrw_taxon.taxonOrder + (0 + 1/100)
          ≤ yrw_taxon.taxonOrder + (0 + 1/100 + 1/100)) ∧
    (∀ bird3 (k3 : ℚ), 0 ≤ k3 → 0 ≤ (process_bird [yrw_taxon] bird3 k3).2.1)) :=
  ⟨by decide, by decide, by decide,
    offset_rows_order_invariant [yrw_taxon] myrtle_row 0 yrw_taxon (by decide)
      (by decide) (by decide)⟩

/-! ## C9 -/

/-- C9: the offset counter is shared across distinct parents — two
consecutive offset-assigned rows whose matched parents differ get
`parent1 + 0.01` and then `parent2 + 0.02`: the counter does not reset when
the parent changes. -/
theorem offset_counter_shared_across_parents (taxonomy : List Taxon)
    (b1 b2 : InputRow) (t1 t2 : Taxon)
    (h1 : (get_matching_taxon (lookup_name b1) taxonomy).1 = some t1)
    (hc1 : non_issf_class taxonomy b1 = true)
    (h2 : (get_matching_taxon (lookup_name b2) taxonomy).1 = some t2)
    (hc2 : non_issf_class taxonomy b2 = true)
    (hne : t1 ≠ t2) :
    (process_birds taxonomy 0 [b1, b2]).1.map (fun r => r.taxonOrder)
      = [t1.taxonOrder + 1/100, t2.taxonOrder + 2/100] := by
  rcases hg1 : get_matching_taxon (lookup_name b1) taxonomy with ⟨o1, flag1, logs1⟩
  rw [hg1] at h1
  simp only at h1
  subst h1
  rcases hg2 : get_matching_taxon (lookup_name b2) taxonomy with ⟨o2, flag2, logs2⟩
  rw [hg2] at h2
  simp only at h2
  subst h2
  simp [process_birds, process_bird, hg1, hg2, hc1, hc2]
  norm_num

/-! ## C6 -/

/-- The first sort-key component is 1 exactly on status `"(4)"`. -/
theorem hist_rank_one_iff (r : EnrichedRow) :
    hist_rank r = 1 ↔ r.stateStatus = hist_status := by
  by_cases h : r.stateStatus = hist_status <;> simp [hist_rank, h]

/-- The first sort-key component is 0 or 1. -/
theorem hist_rank_le_one (r : EnrichedRow) : hist_rank r ≤ 1 := by
  unfold hist_rank
  split <;> omega

/-- Unfolding of the composite-key comparison into its two cases. -/
theorem sort_key_le_iff (a b : EnrichedRow) :
    sort_key_le a b = true ↔
      (hist_rank a < hist_rank b ∨
        (hist_rank a = hist_rank b ∧ a.taxonOrder ≤ b.taxonOrder)) := by
  simp [sort_key_le, Bool.or_eq_true, Bool.and_eq_true, decide_eq_true_iff]

/-- The composite-key comparison is total. -/
theorem sort_key_le_total (a b : EnrichedRow) :
    sort_key_le a b = true ∨ sort_key_le b a = true := by
  rw [sort_key_le_iff, sort_key_le_iff]
  rcases Nat.lt_trichotomy (hist_rank a) (hist_rank b) with h | h | h
  · exact Or.inl (Or.inl h)
  · rcases le_total a.taxonOrder b.taxonOrder with ho | ho
    · exact Or.inl (Or.inr ⟨h, ho⟩)
    · exact Or.inr (Or.inr ⟨h.symm, ho⟩)
  · exact Or.inr (Or.inl h)

/-- The composite-key comparison is transitive. -/
theorem sort_key_le_trans {a b c : EnrichedRow}
    (hab : sort_key_le a b = true) (hbc : sort_key_le b c = true) :
    sort_key_le a c = true := by
  rw [sort_key_le_iff] at hab hbc ⊢
  rcases hab with h1 | ⟨h1, ho1⟩ <;> rcases hbc with h2 | ⟨h2, ho2⟩
  · exact Or.inl (Nat.lt_trans h1 h2)
  · exact Or.inl (h2 ▸ h1)
  · exact Or.inl (h1 ▸ h2)
  · exact Or.inr ⟨h1.trans h2, ho1.trans ho2⟩

/-- Membership in an insertion is membership in the parts. -/
theorem mem_insert_sorted {x a : EnrichedRow} :
    ∀ {l : List EnrichedRow}, x ∈ insert_sorted a l → x = a ∨ x ∈ l := by
  intro l
  induction l with
  | nil =>
    intro h
    rw [insert_sorted, List.mem_singleton] at h
    exact Or.inl h
  | cons b l ih =>
    intro hx
    rw [insert_sorted] at hx
    split at hx
    · rw [List.mem_cons] at hx
      rcases hx with rfl | hx
      · exact Or.inl rfl
      · exact Or.inr hx
    · rw [List.mem_cons] at hx
      rcases hx with rfl | hx
      · exact Or.inr (by simp)
      · rcases ih hx with h | h
        · exact Or.inl h
        · exact Or.inr (List.mem_cons_of_mem b h)

/-- Inserting into a list sorted by the composite key keeps it sorted. -/
theorem pairwise_insert_sorted (a : EnrichedRow) :
    ∀ (l : List EnrichedRow),
      l.Pairwise (fun x y => sort_key_le x y = true) →
      (insert_sorted a l).Pairwise (fun x y => sort_key_le x y = true) := by
  intro l
  induction l with
  | nil => intro _; simp [insert_sorted]
  | cons b l ih =>
    intro hp
    rw [List.pairwise_cons] at hp
    obtain ⟨hb, hl⟩ := hp
    rw [insert_sorted]
    split
    · rename_i hab
      rw [List.pairwise_cons]
      refine ⟨?_, List.pairwise_cons.mpr ⟨hb, hl⟩⟩
      intro x hx
      rw [List.mem_cons] at hx
      rcases hx with rfl | hx
      · exact hab
      · exact sort_key_le_trans hab (hb x hx)
    · rename_i hab
      rw [List.pairwise_cons]
      refine ⟨?_, ih hl⟩
      intro x hx
      rcases mem_insert_sorted hx with rfl | hx
      · rcases sort_key_le_total x b with h | h
        · exact absurd h hab
        · exact h
      · exact hb x hx

/-- The output of the sorting step is sorted by the composite key. -/
theorem pairwise_create_output_file_sort (l : List EnrichedRow) :
    (create_output_file_sort l).Pairwise (fun x y => sort_key_le x y = true) := by
  induction l with
  | nil => simp [create_output_file_sort]
  | cons a l ih => exact pairwise_insert_sorted a (create_output_file_sort l) ih

/-- C6: in the sorted output, once a row with State Status `"(4)"` appears,
every later row also has status `"(4)"` (so `"(4)"` rows come after all
others regardless of order values), and any two rows on the same side of
that split appear in non-decreasing `taxonOrder`. -/
theorem output_sort_hist_last_then_order (rows : List EnrichedRow) (i j : Nat)
    (hi : i < (create_output_file_sort rows).length)
    (hj : j < (create_output_file_sort rows).length) (hij : i < j) :
    ((create_output_file_sort rows)[i].stateStatus = hist_status →
      (create_output_file_sort rows)[j].stateStatus = hist_status) ∧
    (((create_output_file_sort rows)[i].stateStatus = hist_status ↔
        (create_output_file_sort rows)[j].stateStatus = hist_status) →
      (create_output_file_sort rows)[i].taxonOrder
        ≤ (create_output_file_sort rows)[j].taxonOrder) := by
  have hp := pairwise_create_output_file_sort rows
  rw [List.pairwise_iff_getElem] at hp
  have h := hp i j hi hj hij
  rw [sort_key_le_iff] at h
  constructor
  · intro h4
    have h1 : hist_rank (create_output_file_sort rows)[i] = 1 :=
      (hist_rank_one_iff _).mpr h4
    have h2 := hist_rank_le_one (create_output_file_sort rows)[j]
    rcases h with h | ⟨heq, _⟩
    · omega
    · exact (hist_rank_one_iff _).mp (heq ▸ h1)
  · intro hiff
    rcases h with h | ⟨_, ho⟩
    · exfalso
      have hri := hist_rank_le_one (create_output_file_sort rows)[i]
      have hrj := hist_rank_le_one (create_output_file_sort rows)[j]
      have hj1 : hist_rank (create_output_file_sort rows)[j] = 1 := by omega
      have hi1 : hist_rank (create_output_file_sort rows)[i] = 1 :=
        (hist_rank_one_iff _).mpr (hiff.mpr ((hist_rank_one_iff _).mp hj1))
      omega
    · exact ho

/-- C6, witness: a historical row of small order sorts after a normal row
of larger order. -/
theorem output_sort_hist_last_then_order_witness :
    0 < (create_output_file_sort
        [⟨strOf "a", strOf "(4)", none, strOf "s", strOf "c", strOf "o", strOf "f", 1, false⟩,
         ⟨strOf "b", strOf "S", none, strOf "s", strOf "c", strOf "o", strOf "f", 2, false⟩]).length ∧
    1 < (create_output_file_sort
        [⟨strOf "a", strOf "(4)", none, strOf "s", strOf "c", strOf "o", strOf "f", 1, false⟩,
         ⟨strOf "b", strOf "S", none, strOf "s", strOf "c", strOf "o", strOf "f", 2, false⟩]).length ∧
    (((create_output_file_sort
        [⟨strOf "a", strOf "(4)", none, strOf "s", strOf "c", strOf "o", strOf "f", 1, false⟩,
         ⟨strOf "b", strOf "S", none, strOf "s", strOf "c", strOf "o", strOf "f", 2, false⟩])[0].stateStatus
          = hist_status →
      (create_output_file_sort
        [⟨strOf "a", strOf "(4)", none, strOf "s", strOf "c", strOf "o", strOf "f", 1, false⟩,
         ⟨strOf "b", strOf "S", none, strOf "s", strOf "c", strOf "o", strOf "f", 2, false⟩])[1].stateStatus
          = hist_status) ∧
    (((create_output_file_sort
        [⟨strOf "a", strOf "(4)", none, strOf "s", strOf "c", strOf "o", strOf "f", 1, false⟩,
         ⟨strOf "b", strOf "S", none, strOf "s", strOf "c", strOf "o", strOf "f", 2, false⟩])[0].stateStatus
          = hist_status ↔
      (create_output_file_sort
        [⟨strOf "a", strOf "(4)", none, strOf "s", strOf "c", strOf "o", strOf "f", 1, false⟩,
         ⟨strOf "b", strOf "S", none, strOf "s", strOf "c", strOf "o", strOf "f", 2, false⟩])[1].stateStatus
          = hist_status) →
      (create_output_file_sort
        [⟨strOf "a", strOf "(4)", none, strOf "s", strOf "c", strOf "o", strOf "f", 1, false⟩,
         ⟨strOf "b", strOf "S", none, strOf "s", strOf "c", strOf "o", strOf "f", 2, false⟩])[0].taxonOrder
        ≤ (create_output_file_sort
        [⟨strOf "a", strOf "(4)", none, strOf "s", strOf "c", strOf "o", strOf "f", 1, false⟩,
         ⟨strOf "b", strOf "S", none, strOf "s", strOf "c", strOf "o", strOf "f", 2, false⟩])[1].taxonOrder)) :=
  ⟨by decide, by decide,
    output_sort_hist_last_then_order
      [⟨strOf "a", strOf "(4)", none, strOf "s", strOf "c", strOf "o", strOf "f", 1, false⟩,
       ⟨strOf "b", strOf "S", none, strOf "s", strOf "c", strOf "o", strOf "f", 2, false⟩]
      0 1 (by decide) (by decide) (by decide)⟩

/-- C9, witness: subspecies rows of the distinct parents `"Aa"` (order 300)
and `"Bb"` (order 400), processed consecutively from counter 0, get
`300 + 0.01` and `400 + 0.02`. -/
theorem offset_counter_shared_across_parents_witness :
    (get_matching_taxon (lookup_name ⟨strOf "Aa (X)", strOf "S", none⟩)
        [aa_taxon, bb_taxon]).1 = some aa_taxon ∧
    non_issf_class [aa_taxon, bb_taxon] ⟨strOf "Aa (X)", strOf "S", none⟩ = true ∧
    (get_matching_taxon (lookup_name ⟨strOf "Bb (Y)", strOf "S", none⟩)
        [aa_taxon, bb_taxon]).1 = some bb_taxon ∧
    non_issf_class [aa_taxon, bb_taxon] ⟨strOf "Bb (Y)", strOf "S", none⟩ = true ∧
    aa_taxon ≠ bb_taxon ∧
    (process_birds [aa_taxon, bb_taxon] 0
        [⟨strOf "Aa (X)", strOf "S", none⟩, ⟨strOf "Bb (Y)", strOf "S", none⟩]).1.map
        (fun r => r.taxonOrder)
      = [aa_taxon.taxonOrder + 1/100, bb_taxon.taxonOrder + 2/100] :=
  ⟨by decide, by decide, by decide, by decide, by decide,
    offset_counter_shared_across_parents [aa_taxon, bb_taxon]
      ⟨strOf "Aa (X)", strOf "S", none⟩ ⟨strOf "Bb (Y)", strOf "S", none⟩
      aa_taxon bb_taxon (by decide) (by decide) (by decide) (by decide) (by decide)⟩
